import Mathlib

attribute [local semireducible] Rat.add Rat.sub Rat.mul Rat.inv

/-!
Shallow embedding of the SimpleShootingStar per-frame simulation loop
(`main.go`).  Go `float64` values are modelled as exact rationals (every
numeric literal in the source is a small decimal, so no rounding behaviour
is relevant to the claims); Go `int` is modelled as `Int` where the source
can drive the value to zero or below (hit points, bullet cooldowns,
particle lifetimes) and as `Nat` for counters that only increase or reset
to zero.  Input polling, the process-wide random number generator and the
transcendental float functions (`math.Sin`, `math.Cos`, `math.Hypot`,
`math.Pi`) are external collaborators of the simulation core; they are
abstracted as an oracle environment `Env`, and the theorems quantify over
the oracle, so every concrete run of the program is an instance of the
statements proved here.  Rendering, audio and file loading are excluded,
as the specification directs.
-/

namespace Shooting

def screenWidth : ℚ := 640

def screenHeight : ℚ := 480

/-- Go `GameState` iota constants (`main.go` lines 27-33). -/
def GameStateTitle : ℕ := 0

def GameStatePlaying : ℕ := 1

def GameStateStageClear : ℕ := 2

def GameStatePlayerExplosion : ℕ := 3

def GameStateGameOver : ℕ := 4

/-- Go `EnemyType` iota constants (`main.go` lines 50-55). -/
def EnemyTypeStraight : ℕ := 0

def EnemyTypeSine : ℕ := 1

def EnemyTypeSpecial : ℕ := 2

def EnemyTypeBoss : ℕ := 3

structure Color where
  r : ℕ
  g : ℕ
  b : ℕ
  a : ℕ
deriving DecidableEq, Repr, Inhabited

structure Bullet where
  x : ℚ
  y : ℚ
  vx : ℚ
  vy : ℚ
deriving DecidableEq, Repr

structure Star where
  x : ℚ
  y : ℚ
  speed : ℚ
  length : ℚ
  color : Color
deriving DecidableEq, Repr

structure EnemyBullet where
  x : ℚ
  y : ℚ
  vx : ℚ
  vy : ℚ
deriving DecidableEq, Repr

/-- `Enemy` struct (`main.go` lines 64-79). -/
structure Enemy where
  x : ℚ
  y : ℚ
  speed : ℚ
  enemyType : ℕ
  time : ℚ
  phase : ℕ
  hp : ℤ
  shootsBullet : Bool
  bulletType : ℕ
  bulletCooldown : ℤ
  turnDirection : ℤ
  bossState : ℕ
  bossTimer : ℕ
  moveDirection : ℤ
deriving DecidableEq, Repr

/-- `Wave` spawn descriptor (`main.go` lines 82-90). -/
structure Wave where
  enemyType : ℕ
  x : ℤ
  delay : ℕ
  shootsBullet : Bool
  bulletType : ℕ
  speed : ℚ
  turnDirection : ℤ
deriving DecidableEq, Repr, Inhabited

structure Particle where
  x : ℚ
  y : ℚ
  vx : ℚ
  vy : ℚ
  size : ℚ
  alpha : ℚ
  lifetime : ℤ
  ptype : ℕ
deriving DecidableEq, Repr

structure Stage where
  name : String
  waves : List Wave
deriving DecidableEq, Repr

/-- `Game` aggregate (`main.go` lines 132-151). -/
structure Game where
  playerX : ℚ
  playerY : ℚ
  bullets : List Bullet
  shootCooldown : ℤ
  stars : List Star
  enemies : List Enemy
  waves : List Wave
  waveTimer : ℕ
  currentSpawn : ℕ
  score : ℕ
  gameState : ℕ
  highScore : ℕ
  particles : List Particle
  currentStage : ℕ
  stageClearTimer : ℕ
  stageClearKeyReleased : Bool
  playerExplosionTimer : ℕ
  enemyBullets : List EnemyBullet
deriving DecidableEq, Repr

/-- Oracle for the external collaborators consumed inside one `Update`
call: the boolean key states polled from ebiten, the stage data loaded at
start-up, the transcendental float functions and every random draw, each
call site reading its own stream so that distinct draws stay independent.
`rand.Intn n` results are taken modulo `n`, mirroring its range contract;
`rand.Float64` results are unconstrained rationals standing for `[0,1)`
samples. -/
structure Env where
  space : Bool
  left : Bool
  right : Bool
  up : Bool
  down : Bool
  rKey : Bool
  stages : List Stage
  pi : ℚ
  sin : ℚ → ℚ
  cos : ℚ → ℚ
  hypot : ℚ → ℚ → ℚ
  explAngle : ℕ → ℕ → ℚ
  explSpeed : ℕ → ℕ → ℚ
  explSize : ℕ → ℕ → ℚ
  explLife : ℕ → ℕ → ℕ
  spawnCd : ℕ
  fireCd : ℕ → ℕ
  starFx : ℕ → ℚ
  starFspd : ℕ → ℚ
  starFlen : ℕ → ℚ
  initStarX : ℕ → ℚ
  initStarY : ℕ → ℚ
  initStarSpd : ℕ → ℚ
  initStarLen : ℕ → ℚ
  initStarColor : ℕ → ℕ

def colorGreen : Color := ⟨0, 255, 0, 255⟩

/-- Star colour table used by `NewGame` (`main.go` lines 160-166). -/
def starColors : List Color :=
  [⟨180, 180, 255, 100⟩, ⟨140, 180, 255, 100⟩, ⟨100, 140, 255, 100⟩,
   ⟨200, 200, 255, 80⟩, ⟨80, 120, 255, 80⟩]

/-- `createExplosion` (`main.go` lines 206-223): 20 particles at `(x, y)`
with randomized angle, speed, size and lifetime.  `callIdx` identifies the
explosion call within the frame so that separate explosions draw separate
randomness.  The `color` argument is accepted and ignored, exactly as in
the source (the parameter is unused in the function body). -/
def createExplosion (env : Env) (callIdx : ℕ) (x y : ℚ) (_color : Color) :
    List Particle :=
  (List.range 20).map fun i =>
    let angle := env.explAngle callIdx i * env.pi * 2
    let speed := 2 + env.explSpeed callIdx i * 3
    { x := x, y := y,
      vx := env.cos angle * speed, vy := env.sin angle * speed,
      size := 4 + env.explSize callIdx i * 4, alpha := 1,
      lifetime := 30 + (env.explLife callIdx i % 20 : ℤ), ptype := 0 }

/-- Particle update run at the top of every `Update` regardless of game
state (`main.go` lines 260-274): Normal particles integrate position and
gain downward gravity 0.1; every particle loses `1/lifetime` alpha (the
divisor is read before the decrement) and one tick of lifetime. -/
def updParticle (p : Particle) : Particle :=
  let p := if p.ptype ≠ 1 then
      { p with x := p.x + p.vx, y := p.y + p.vy, vy := p.vy + 1/10 }
    else p
  { p with alpha := p.alpha - 1 / (p.lifetime : ℚ), lifetime := p.lifetime - 1 }

/-- The surviving-particle collection for the next tick: a particle is
kept only when, after the update, `lifetime > 0 && alpha > 0`. -/
def stepParticles (ps : List Particle) : List Particle :=
  (ps.map updParticle).filter fun p => decide (0 < p.lifetime) && decide (0 < p.alpha)

/-- Background star update (`main.go` lines 250-258). -/
def starsStep (env : Env) (stars : List Star) : List Star :=
  stars.mapIdx fun i s =>
    let s := { s with y := s.y + s.speed }
    if s.y > screenHeight then
      { x := env.starFx i * screenWidth, y := -s.length,
        speed := 2 + env.starFspd i * 3, length := 8 + env.starFlen i * 8,
        color := s.color }
    else s

/-- Cumulative trigger delay: the source recomputes
`for i := 0; i <= cursor; i++ totalDelay += waves[i].Delay` each frame
(`main.go` lines 314-317). -/
def totalDelay (waves : List Wave) (cursor : ℕ) : ℕ :=
  (List.range (cursor + 1)).foldl (fun acc i => acc + (waves.getD i default).delay) 0

/-- Enemy instantiation from a `Wave` descriptor (`main.go` lines 319-355):
hit points by kind, speed 0 defaulting to 2.0, turn direction 0 defaulting
to +1, randomized firing cooldown `60 + rand.Intn(60)`. -/
def spawnEnemy (env : Env) (w : Wave) : Enemy :=
  let hp : ℤ :=
    if w.enemyType = EnemyTypeStraight then 2
    else if w.enemyType = EnemyTypeSine then 3
    else if w.enemyType = EnemyTypeSpecial then 4
    else if w.enemyType = EnemyTypeBoss then 50
    else 1
  let speed := if w.speed = 0 then 2 else w.speed
  let turnDir := if w.turnDirection = 0 then 1 else w.turnDirection
  { x := (w.x : ℚ), y := -20, speed := speed, enemyType := w.enemyType,
    time := 0, phase := 0, hp := hp, shootsBullet := w.shootsBullet,
    bulletType := w.bulletType, bulletCooldown := 60 + (env.spawnCd % 60 : ℤ),
    turnDirection := turnDir, bossState := 0, bossTimer := 0, moveDirection := 1 }

structure SpawnRes where
  cursor : ℕ
  enemies : List Enemy
deriving DecidableEq, Repr

/-- The spawn block (`main.go` lines 311-359): while the cursor has not
exhausted the wave list, the wave at the cursor is instantiated on any
frame whose timer has reached the cumulative delay, and the cursor then
advances by one. -/
def spawnCheck (env : Env) (waves : List Wave) (cursor timer : ℕ)
    (enemies : List Enemy) : SpawnRes :=
  if cursor < waves.length then
    if totalDelay waves cursor ≤ timer then
      ⟨cursor + 1, enemies ++ [spawnEnemy env (waves.getD cursor default)]⟩
    else ⟨cursor, enemies⟩
  else ⟨cursor, enemies⟩

/-- The boss 5-way radial spread (`main.go` lines 424-432): angles
`j * 0.3` for `j = -2..2`, speed 3. -/
def bossVolley (env : Env) (e : Enemy) : List EnemyBullet :=
  [-2, -1, 0, 1, 2].map fun (j : ℤ) =>
    let angle := (j : ℚ) * (3/10)
    { x := e.x + 20, y := e.y + 30,
      vx := env.sin angle * 3, vy := env.cos angle * 3 }

/-- The attack-effect Line particle emitted with each volley
(`main.go` lines 434-437). -/
def attackParticle (e : Enemy) : Particle :=
  { x := e.x + 20, y := e.y + 30, vx := 0, vy := 4, size := 100,
    alpha := 1, lifetime := 8, ptype := 1 }

structure MoveRes where
  enemy : Enemy
  ebs : List EnemyBullet
  particles : List Particle
deriving DecidableEq, Repr

/-- Per-enemy movement in the Playing state (`main.go` lines 363-451),
including the boss sub-state machine, which is the only movement path that
emits enemy bullets.  The `time` accumulator gains 0.05 before the switch.
-/
def moveEnemyP (env : Env) (e : Enemy) : MoveRes :=
  let e := { e with time := e.time + 1/20 }
  if e.enemyType = EnemyTypeStraight then ⟨{ e with y := e.y + e.speed }, [], []⟩
  else if e.enemyType = EnemyTypeSine then
    ⟨{ e with y := e.y + e.speed, x := e.x + env.sin e.time * 3 }, [], []⟩
  else if e.enemyType = EnemyTypeSpecial then
    if e.phase = 0 then
      let e := { e with y := e.y + e.speed }
      ⟨if e.y > screenHeight / 2 then { e with phase := 1 } else e, [], []⟩
    else if e.phase = 1 then
      let e := { e with x := e.x + e.speed * (e.turnDirection : ℚ) }
      ⟨if (e.turnDirection = 1 ∧ e.x > screenWidth - 40) ∨
          (e.turnDirection = -1 ∧ e.x < 20) then { e with phase := 2 } else e, [], []⟩
    else if e.phase = 2 then ⟨{ e with y := e.y + e.speed }, [], []⟩
    else ⟨e, [], []⟩
  else if e.enemyType = EnemyTypeBoss then
    let e := { e with bossTimer := e.bossTimer + 1 }
    if e.bossState = 0 then
      if e.y < 80 then ⟨{ e with y := e.y + e.speed }, [], []⟩
      else
        let e := { e with x := e.x + e.speed * (e.moveDirection : ℚ) }
        let e := if e.x ≤ 50 then { e with moveDirection := 1 }
          else if e.x ≥ screenWidth - 90 then { e with moveDirection := -1 }
          else e
        if e.bossTimer > 120 then ⟨{ e with bossState := 1, bossTimer := 0 }, [], []⟩
        else ⟨e, [], []⟩
    else if e.bossState = 1 then
      if e.bossTimer > 60 then ⟨{ e with bossState := 2, bossTimer := 0 }, [], []⟩
      else ⟨e, [], []⟩
    else if e.bossState = 2 then
      let ebs := if e.bossTimer % 8 = 0 ∧ e.bossTimer < 80 then bossVolley env e else []
      let ps := if e.bossTimer % 8 = 0 ∧ e.bossTimer < 80 then [attackParticle e] else []
      if e.bossTimer > 80 then ⟨{ e with bossState := 3, bossTimer := 0 }, ebs, ps⟩
      else ⟨e, ebs, ps⟩
    else if e.bossState = 3 then
      if e.bossTimer > 90 then ⟨{ e with bossState := 0, bossTimer := 0 }, [], []⟩
      else ⟨e, [], []⟩
    else ⟨e, [], []⟩
  else ⟨e, [], []⟩

/-- The aimed (bullet pattern 0) velocity computation
(`main.go` lines 458-465): `dist := math.Hypot(dx, dy)` followed by the
unguarded divisions `dx / dist * 4` and `dy / dist * 4`.  `math.Hypot`
returns 0 exactly when `dx = 0` and `dy = 0`, and Go float division of
0 by 0 yields NaN, an undefined velocity; the embedding returns `none`
for that undefined outcome and otherwise the pair of divisions with the
(oracle-valued) positive hypotenuse. -/
def aimedShot (env : Env) (px py ex ey : ℚ) : Option (ℚ × ℚ) :=
  let dx := px - ex
  let dy := py - ey
  if dx = 0 ∧ dy = 0 then none
  else
    let dist := env.hypot dx dy
    some (dx / dist * 4, dy / dist * 4)

/-- The shooter block run for every enemy flagged `shootsBullet`
(`main.go` lines 453-479): the cooldown is decremented, and at zero or
below one bullet is emitted according to `bulletType` together with a
muzzle-flash Line particle, after which the cooldown resets to
`60 + rand.Intn(60)`.  `k` is the index of the enemy in this frame's loop,
selecting its random draw.  For the aimed pattern the undefined
zero-distance velocity (see `aimedShot`) is written as the pair `(0, 0)`
standing in for Go's NaN components (no claim depends on that value). -/
def fireEnemy (env : Env) (k : ℕ) (px py : ℚ) (e : Enemy) : MoveRes :=
  if e.shootsBullet then
    let cd := e.bulletCooldown - 1
    if cd ≤ 0 then
      let v : Option (ℚ × ℚ) :=
        if e.bulletType = 0 then some ((aimedShot env px py e.x e.y).getD (0, 0))
        else if e.bulletType = 1 then some (0, 4)
        else if e.bulletType = 2 then some (2, 4)
        else if e.bulletType = 3 then some (-2, 4)
        else none
      let e := { e with bulletCooldown := 60 + (env.fireCd k % 60 : ℤ) }
      match v with
      | some (vx, vy) =>
          ⟨e, [{ x := e.x + 10, y := e.y + 20, vx := vx, vy := vy }],
           [{ x := e.x + 10, y := e.y + 20, vx := vx, vy := vy, size := 80,
              alpha := 1, lifetime := 5, ptype := 1 }]⟩
      | none => ⟨e, [], []⟩
    else ⟨{ e with bulletCooldown := cd }, [], []⟩
  else ⟨e, [], []⟩

structure LoopRes where
  enemies : List Enemy
  ebs : List EnemyBullet
  particles : List Particle
deriving DecidableEq, Repr

/-- The enemy loop of the Playing state: each enemy is moved and then runs
its firing block, accumulating emitted enemy bullets and particles in
program order. -/
def enemyLoop (env : Env) (px py : ℚ) : ℕ → List Enemy → LoopRes
  | _, [] => ⟨[], [], []⟩
  | k, e :: rest =>
      let m := moveEnemyP env e
      let f := fireEnemy env k px py m.enemy
      let r := enemyLoop env px py (k + 1) rest
      ⟨f.enemy :: r.enemies, m.ebs ++ f.ebs ++ r.ebs,
       m.particles ++ f.particles ++ r.particles⟩

/-- Player-bullet versus enemy hitbox test (`main.go` lines 527-533):
4×8 bullet against a 20×20 enemy, 60×40 for the boss. -/
def overlapBE (b : Bullet) (e : Enemy) : Prop :=
  let w : ℚ := if e.enemyType = EnemyTypeBoss then 60 else 20
  let h : ℚ := if e.enemyType = EnemyTypeBoss then 40 else 20
  b.x < e.x + w ∧ b.x + 4 > e.x ∧ b.y < e.y + h ∧ b.y + 8 > e.y

instance (b : Bullet) (e : Enemy) : Decidable (overlapBE b e) := by
  unfold overlapBE; infer_instance

/-- Score for a destroyed enemy (`main.go` lines 538-543). -/
def pointsFor (e : Enemy) : ℕ := if e.enemyType = EnemyTypeBoss then 1000 else 100

/-- Explosion colour for a destroyed enemy (`main.go` lines 546-556); the
Go zero value stands for kinds outside the switch. -/
def explColor (e : Enemy) : Color :=
  if e.enemyType = EnemyTypeStraight then ⟨255, 0, 0, 255⟩
  else if e.enemyType = EnemyTypeSine then ⟨255, 165, 0, 255⟩
  else if e.enemyType = EnemyTypeSpecial then ⟨255, 0, 255, 255⟩
  else if e.enemyType = EnemyTypeBoss then ⟨255, 215, 0, 255⟩
  else ⟨0, 0, 0, 0⟩

structure Kill where
  points : ℕ
  x : ℚ
  y : ℚ
  color : Color
deriving DecidableEq, Repr

/-- The inner loop of the bullet collision pass (`main.go` lines 525-562):
the bullet damages the first enemy it overlaps, in list order; the hit
point is removed, and if hit points drop to zero or below the enemy is
deleted from the list and the score/explosion data of the kill is
reported.  `none` means the bullet registered no hit. -/
def hitEnemies (b : Bullet) : List Enemy → Option (List Enemy × Option Kill)
  | [] => none
  | e :: rest =>
      if overlapBE b e then
        if e.hp - 1 ≤ 0 then
          some (rest, some ⟨pointsFor e, e.x + 10, e.y + 10, explColor e⟩)
        else some ({ e with hp := e.hp - 1 } :: rest, none)
      else
        match hitEnemies b rest with
        | some (es, k) => some (e :: es, k)
        | none => none

/-- Player-bullet retention bounds (`main.go` line 566). -/
def bulletInBounds (b : Bullet) : Prop :=
  b.y > -8 ∧ b.x > -8 ∧ b.x < screenWidth + 8

instance (b : Bullet) : Decidable (bulletInBounds b) := by
  unfold bulletInBounds; infer_instance

structure BulletsRes where
  bullets : List Bullet
  enemies : List Enemy
  points : ℕ
  particles : List Particle
  ec : ℕ
deriving DecidableEq, Repr

/-- The player-bullet pass (`main.go` lines 521-571): each bullet either
registers a hit (and is consumed without moving, spawning a 20-particle
explosion and awarding score when the enemy dies) or moves and is kept
only inside the visible bounds.  `ec` counts `createExplosion` calls made
so far in the frame, so each explosion draws fresh randomness. -/
def bulletsStep (env : Env) (ec : ℕ) : List Bullet → List Enemy → BulletsRes
  | [], es => ⟨[], es, 0, [], ec⟩
  | b :: rest, es =>
      match hitEnemies b es with
      | some (es', some k) =>
          let r := bulletsStep env (ec + 1) rest es'
          ⟨r.bullets, r.enemies, k.points + r.points,
           createExplosion env ec k.x k.y k.color ++ r.particles, r.ec⟩
      | some (es', none) =>
          let r := bulletsStep env ec rest es'
          ⟨r.bullets, r.enemies, r.points, r.particles, r.ec⟩
      | none =>
          let b := { b with x := b.x + b.vx, y := b.y + b.vy }
          let r := bulletsStep env ec rest es
          ⟨if bulletInBounds b then b :: r.bullets else r.bullets,
           r.enemies, r.points, r.particles, r.ec⟩

/-- One player bullet of the three-way volley (`main.go` lines 500-512):
`rad = π/180 · deg`, velocity `(sin rad · 12, -cos rad · 12)`, spawn at
the player position shifted by the per-barrel offset. -/
def mkPBullet (env : Env) (px py deg offset : ℚ) : Bullet :=
  let rad := env.pi / 180 * deg
  { x := px + offset, y := py, vx := env.sin rad * 12, vy := -(env.cos rad * 12) }

/-- The volley appended when the fire key is held with zero cooldown:
angles −3°, 0°, +3° at x-offsets 0, 8, 16. -/
def fireVolley (env : Env) (px py : ℚ) : List Bullet :=
  [mkPBullet env px py (-3) 0, mkPBullet env px py 0 8, mkPBullet env px py 3 16]

/-- The firing `if` of the shoot block (`main.go` lines 499-516): when the
fire key is held and the cooldown is exactly zero the volley is appended
and the cooldown is set to 5. -/
def fireBlock (env : Env) (px py : ℚ) (bs : List Bullet) (cd : ℤ) :
    List Bullet × ℤ :=
  if env.space = true ∧ cd = 0 then (bs ++ fireVolley env px py, 5) else (bs, cd)

/-- The whole shoot block (`main.go` lines 499-519): the firing `if`
followed by the unconditional `if shootCooldown > 0 { shootCooldown-- }`.
-/
def shootStep (env : Env) (px py : ℚ) (bs : List Bullet) (cd : ℤ) :
    List Bullet × ℤ :=
  let p := fireBlock env px py bs cd
  (p.1, if p.2 > 0 then p.2 - 1 else p.2)

/-- Enemy-bullet versus player hitbox test (`main.go` line 579). -/
def overlapEBP (eb : EnemyBullet) (px py : ℚ) : Prop :=
  eb.x < px + 20 ∧ eb.x + 4 > px ∧ eb.y < py + 24 ∧ eb.y + 8 > py

instance (eb : EnemyBullet) (px py : ℚ) : Decidable (overlapEBP eb px py) := by
  unfold overlapEBP; infer_instance

/-- Enemy-bullet retention bounds (`main.go` line 586). -/
def ebInBounds (eb : EnemyBullet) : Prop :=
  eb.y < screenHeight + 8 ∧ eb.x > -8 ∧ eb.x < screenWidth + 8

instance (eb : EnemyBullet) : Decidable (ebInBounds eb) := by
  unfold ebInBounds; infer_instance

structure EbRes where
  ebs : List EnemyBullet
  hit : Bool
  particles : List Particle
  ec : ℕ
deriving DecidableEq, Repr

/-- The enemy-bullet pass (`main.go` lines 573-590): each bullet moves and
is tested against the player; on the first overlap a green explosion is
spawned at the player and the loop breaks (the hitting bullet and every
bullet after it are dropped, survivors collected so far are kept);
otherwise bullets are retained inside the visible bounds. -/
def enemyBulletsStep (env : Env) (ec : ℕ) (px py : ℚ) :
    List EnemyBullet → EbRes
  | [] => ⟨[], false, [], ec⟩
  | eb :: rest =>
      let eb := { eb with x := eb.x + eb.vx, y := eb.y + eb.vy }
      if overlapEBP eb px py then
        ⟨[], true, createExplosion env ec (px + 10) (py + 12) colorGreen, ec + 1⟩
      else
        let r := enemyBulletsStep env ec px py rest
        ⟨if ebInBounds eb then eb :: r.ebs else r.ebs, r.hit, r.particles, r.ec⟩

/-- Player-body versus enemy hitbox test (`main.go` lines 593-601). -/
def overlapPE (px py : ℚ) (e : Enemy) : Prop :=
  let w : ℚ := if e.enemyType = EnemyTypeBoss then 60 else 20
  let h : ℚ := if e.enemyType = EnemyTypeBoss then 40 else 20
  px < e.x + w ∧ px + 20 > e.x ∧ py < e.y + h ∧ py + 24 > e.y

instance (px py : ℚ) (e : Enemy) : Decidable (overlapPE px py e) := by
  unfold overlapPE; infer_instance

/-- Horizontal player movement result for the frame, from the player's
current x (`main.go` lines 284-297). -/
def movedPX (env : Env) (px0 : ℚ) : ℚ :=
  let px := if env.left = true then
      (let v := px0 - 8; if v < 20 then 20 else v)
    else px0
  if env.right = true then
    (let v := px + 8; if v > screenWidth - 40 then screenWidth - 40 else v)
  else px

/-- Vertical player movement result for the frame, from the player's
current y (`main.go` lines 298-309). -/
def movedPY (env : Env) (py0 : ℚ) : ℚ :=
  let py := if env.up = true then
      (let v := py0 - 8; if v < 40 then 40 else v)
    else py0
  if env.down = true then
    (let v := py + 8; if v > screenHeight - 20 then screenHeight - 20 else v)
  else py

/-- The Playing-state update (`main.go` lines 282-611), in source order:
player movement, wave spawning, wave-timer increment, enemy
movement/firing, off-screen enemy removal, the StageClear check, the shoot
block, the player-bullet pass, the enemy-bullet pass, and the player-body
collision pass.  The state assignments later in the frame overwrite
earlier ones, exactly as in the straight-line Go code. -/
def playingStep (env : Env) (g : Game) : Game :=
  let px := movedPX env g.playerX
  let py := movedPY env g.playerY
  let sp := spawnCheck env g.waves g.currentSpawn g.waveTimer g.enemies
  let mv := enemyLoop env px py 0 sp.enemies
  let enemies1 := mv.enemies.filter fun e => decide (e.y < screenHeight + 20)
  let cleared := g.waves.length ≤ sp.cursor ∧ enemies1 = []
  let state1 := if cleared then GameStateStageClear else g.gameState
  let sct := if cleared then 0 else g.stageClearTimer
  let sckr := if cleared then false else g.stageClearKeyReleased
  let sh := shootStep env px py g.bullets g.shootCooldown
  let br := bulletsStep env 0 sh.1 enemies1
  let er := enemyBulletsStep env br.ec px py (g.enemyBullets ++ mv.ebs)
  let state2 := if er.hit = true then GameStatePlayerExplosion else state1
  let pet1 := if er.hit = true then 0 else g.playerExplosionTimer
  let bodyHit := br.enemies.any fun e => decide (overlapPE px py e)
  let hs := if bodyHit = true ∧ g.score + br.points > g.highScore then
      g.score + br.points
    else g.highScore
  let state3 := if bodyHit = true then GameStatePlayerExplosion else state2
  let pet2 := if bodyHit = true then 0 else pet1
  let psBody := if bodyHit = true then
      createExplosion env er.ec (px + 10) (py + 12) colorGreen
    else []
  { g with
    playerX := px, playerY := py,
    currentSpawn := sp.cursor, waveTimer := g.waveTimer + 1,
    enemies := br.enemies, bullets := br.bullets, shootCooldown := sh.2,
    score := g.score + br.points, highScore := hs,
    gameState := state3, stageClearTimer := sct, stageClearKeyReleased := sckr,
    playerExplosionTimer := pet2, enemyBullets := er.ebs,
    particles := g.particles ++ mv.particles ++ br.particles ++ er.particles ++ psBody }

/-- Stage advancement shared by both StageClear exits
(`main.go` lines 627-641 and 647-661). -/
def advanceStage (env : Env) (g : Game) : Game :=
  let cs := g.currentStage + 1
  if cs ≥ env.stages.length then
    { g with
      currentStage := cs, gameState := GameStateGameOver,
      highScore := if g.score > g.highScore then g.score else g.highScore }
  else
    { g with
      currentStage := cs, waves := (env.stages.getD cs ⟨"", []⟩).waves,
      currentSpawn := 0, waveTimer := 0, enemies := [], bullets := [],
      enemyBullets := [], gameState := GameStatePlaying }

/-- The StageClear-state update (`main.go` lines 619-662): timer
increment, the release-then-press debounce after 60 ticks (with an early
return on manual advance), and the unconditional advance after 120 ticks.
-/
def stageClearStep (env : Env) (g : Game) : Game :=
  let t := g.stageClearTimer + 1
  let released := if t > 60 ∧ env.space = false then true else g.stageClearKeyReleased
  let g1 := { g with stageClearTimer := t, stageClearKeyReleased := released }
  if t > 60 ∧ released = true ∧ env.space = true then advanceStage env g1
  else if t > 120 then advanceStage env g1
  else g1

/-- Per-enemy movement in the GameOver state (`main.go` lines 666-691).
The switch has no boss case (a boss only accumulates `time`), and the
Special phase-1 branch adds `speed` without the `turnDirection` factor,
with only the right-edge exit test. -/
def moveEnemyGO (env : Env) (e : Enemy) : Enemy :=
  let e := { e with time := e.time + 1/20 }
  if e.enemyType = EnemyTypeStraight then { e with y := e.y + e.speed }
  else if e.enemyType = EnemyTypeSine then
    { e with y := e.y + e.speed, x := e.x + env.sin e.time * 3 }
  else if e.enemyType = EnemyTypeSpecial then
    if e.phase = 0 then
      let e := { e with y := e.y + e.speed }
      if e.y > screenHeight / 2 then { e with phase := 1 } else e
    else if e.phase = 1 then
      let e := { e with x := e.x + e.speed }
      if e.x > screenWidth - 40 then { e with phase := 2 } else e
    else if e.phase = 2 then { e with y := e.y + e.speed }
    else e
  else e

/-- Initial star field of `NewGame` (`main.go` lines 167-177). -/
def initStars (env : Env) : List Star :=
  (List.range 60).map fun i =>
    { x := env.initStarX i * screenWidth, y := env.initStarY i * screenHeight,
      speed := 2 + env.initStarSpd i * 3, length := 8 + env.initStarLen i * 8,
      color := starColors.getD (env.initStarColor i % 5) default }

/-- `NewGame` (`main.go` lines 184-203): the freshly constructed session.
`shootCooldown` is the Go zero value; the wave list is stage 0's. -/
def newGame (env : Env) : Game :=
  { playerX := screenWidth / 2, playerY := screenHeight / 2 * (17/10),
    bullets := [], shootCooldown := 0, stars := initStars env, enemies := [],
    waves := (env.stages.getD 0 ⟨"", []⟩).waves, waveTimer := 0,
    currentSpawn := 0, score := 0, gameState := GameStateTitle, highScore := 0,
    particles := [], currentStage := 0, stageClearTimer := 0,
    stageClearKeyReleased := false, playerExplosionTimer := 0, enemyBullets := [] }

/-- The GameOver-state update (`main.go` lines 664-707): enemies keep
moving (by the GameOver movement rules) and fall off screen; pressing the
restart key replaces the whole session with `*NewGame()` and sets the
state to Playing. -/
def gameOverStep (env : Env) (g : Game) : Game :=
  let es := (g.enemies.map (moveEnemyGO env)).filter fun e =>
    decide (e.y < screenHeight + 20)
  if env.rKey = true then
    let ng := newGame env
    { ng with gameState := GameStatePlaying }
  else { g with enemies := es }

/-- One whole `Update` call (`main.go` lines 248-711): stars and particles
advance in every state, then the switch on the game state dispatches. -/
def update (env : Env) (g : Game) : Game :=
  let g1 := { g with stars := starsStep env g.stars,
                     particles := stepParticles g.particles }
  if g.gameState = GameStateTitle then
    if env.space = true then { g1 with gameState := GameStatePlaying } else g1
  else if g.gameState = GameStatePlaying then playingStep env g1
  else if g.gameState = GameStateStageClear then stageClearStep env g1
  else if g.gameState = GameStatePlayerExplosion then
    let t := g1.playerExplosionTimer + 1
    { g1 with playerExplosionTimer := t,
              gameState := if t > 60 then GameStateGameOver else g1.gameState }
  else if g.gameState = GameStateGameOver then gameOverStep env g1
  else g1

/-- A concrete oracle with all keys up and all random streams constant,
used for concrete evaluations. -/
def env0 : Env :=
  { space := false, left := false, right := false, up := false, down := false,
    rKey := false, stages := [], pi := 0, sin := fun _ => 0, cos := fun _ => 0,
    hypot := fun _ _ => 0, explAngle := fun _ _ => 0, explSpeed := fun _ _ => 0,
    explSize := fun _ _ => 0, explLife := fun _ _ => 0, spawnCd := 0,
    fireCd := fun _ => 0, starFx := fun _ => 0, starFspd := fun _ => 0,
    starFlen := fun _ => 0, initStarX := fun _ => 0, initStarY := fun _ => 0,
    initStarSpd := fun _ => 0, initStarLen := fun _ => 0,
    initStarColor := fun _ => 0 }

/-- Total hit points of a collection of enemies. -/
def totalHp (es : List Enemy) : ℤ := (es.map Enemy.hp).sum

/-- The wave descriptor of a freshly spawned boss: kind Boss at x = 320
with all optional fields at their Go zero values. -/
def bossWave : Wave := ⟨EnemyTypeBoss, 320, 0, false, 0, 0, 0⟩

/-- The freshly spawned boss enemy produced by the spawn block. -/
def bossE : Enemy := spawnEnemy env0 bossWave

/-- The boss after `n` Playing-state movement ticks. -/
def bossIter (n : ℕ) : Enemy := (fun e => (moveEnemyP env0 e).enemy)^[n] bossE

/-- A stage wave list with cumulative delays [0, 30, 30], the example of
the specification. -/
def waves3 : List Wave :=
  [⟨EnemyTypeStraight, 100, 0, false, 0, 0, 0⟩,
   ⟨EnemyTypeStraight, 320, 30, false, 0, 0, 0⟩,
   ⟨EnemyTypeStraight, 540, 30, false, 0, 0, 0⟩]

/-- One tick of the spawn scheduler on `waves3`: the spawn check followed
by the wave-timer increment, on state (timer, cursor, enemies). -/
def c3Step (s : ℕ × ℕ × List Enemy) : ℕ × ℕ × List Enemy :=
  let r := spawnCheck env0 waves3 s.2.1 s.1 s.2.2
  (s.1 + 1, r.cursor, r.enemies)

/-- The spawn-scheduler state after `n` ticks of a fresh stage. -/
def c3Trace (n : ℕ) : ℕ × ℕ × List Enemy := c3Step^[n] (0, 0, [])

/-- The shoot-cooldown trajectory under a stream of fire-key samples,
starting from the fresh cooldown 0; tick `n` runs the shoot block with
key state `keys n`. -/
def cdTrace (keys : ℕ → Bool) : ℕ → ℤ
  | 0 => 0
  | n + 1 => (shootStep { env0 with space := keys n } 0 0 [] (cdTrace keys n)).2

def envS : Env := { env0 with space := true }

def envR : Env := { env0 with rKey := true }

/-- A session sitting on the GameOver screen with a recorded high score. -/
def gOver : Game :=
  { newGame env0 with
    gameState := GameStateGameOver, highScore := 500, score := 200 }

/-- A Playing session whose (empty) wave list is exhausted, with no
enemies and no enemy bullets. -/
def gClear : Game := { newGame env0 with gameState := GameStatePlaying }

/-- As `gClear` but with one leftover enemy bullet that will overlap the
player after this tick's integration step. -/
def gClearHit : Game :=
  { newGame env0 with
    gameState := GameStatePlaying, enemyBullets := [⟨320, 400, 0, 4⟩] }

/-- A Playing session with score 500, high score 0, no enemies, and one
enemy bullet about to hit the player. -/
def gBulletHit : Game :=
  { newGame env0 with
    gameState := GameStatePlaying, score := 500,
    enemyBullets := [⟨320, 400, 0, 4⟩] }

/-- A player bullet overlapping `e4`. -/
def b4 : Bullet := ⟨100, 100, 0, -12⟩

/-- A Straight enemy down to its last hit point. -/
def e4 : Enemy := ⟨100, 100, 2, EnemyTypeStraight, 0, 0, 1, false, 0, 60, 1, 0, 0, 1⟩

/-- A Special enemy in phase 1 with turn direction −1. -/
def eSp : Enemy := ⟨300, 300, 2, EnemyTypeSpecial, 0, 1, 4, false, 0, 60, -1, 0, 0, 1⟩

/-- A live Normal particle. -/
def pW : Particle := ⟨0, 0, 1, 1, 4, 1, 30, 0⟩

set_option maxRecDepth 8000

set_option maxHeartbeats 2000000

/-- C8: on every tick each surviving particle loses exactly `1/lifetime`
alpha and one tick of lifetime (both strictly decreasing, since live
particles have `lifetime ≥ 1`); Normal particles integrate position and
gravity while Line particles do not move; and every particle in the
collection kept for the next tick has positive lifetime and positive
alpha, so a particle whose lifetime or alpha became non-positive is
absent. -/
theorem particle_decay_invariants (p : Particle) (ps : List Particle)
    (h : 1 ≤ p.lifetime) :
    (updParticle p).alpha = p.alpha - 1 / (p.lifetime : ℚ) ∧
    (updParticle p).alpha < p.alpha ∧
    (updParticle p).lifetime = p.lifetime - 1 ∧
    (p.ptype ≠ 1 → (updParticle p).x = p.x + p.vx ∧ (updParticle p).y = p.y + p.vy ∧
      (updParticle p).vy = p.vy + 1/10) ∧
    (p.ptype = 1 → (updParticle p).x = p.x ∧ (updParticle p).y = p.y ∧
      (updParticle p).vy = p.vy) ∧
    (∀ q ∈ stepParticles ps, 0 < q.lifetime ∧ 0 < q.alpha) := by
  have hq : (0 : ℚ) < 1 / (p.lifetime : ℚ) := by
    have h0 : (0 : ℚ) < (p.lifetime : ℚ) := by
      exact_mod_cast lt_of_lt_of_le Int.zero_lt_one h
    positivity
  refine ⟨?_, ?_, ?_, ?_, ?_, ?_⟩
  · unfold updParticle; split <;> simp
  · have ha : (updParticle p).alpha = p.alpha - 1 / (p.lifetime : ℚ) := by
      unfold updParticle; split <;> simp
    rw [ha]; linarith
  · unfold updParticle; split <;> simp
  · intro hp; unfold updParticle; simp [hp]
  · intro hp; unfold updParticle; simp [hp]
  · intro q hmem
    unfold stepParticles at hmem
    simp only [List.mem_filter, Bool.and_eq_true, decide_eq_true_eq] at hmem
    exact hmem.2

/-- C8 witness: a concrete live Normal particle. -/
theorem particle_decay_invariants_witness :
    (1 ≤ pW.lifetime) ∧ (updParticle pW).alpha < pW.alpha ∧
    (updParticle pW).lifetime = pW.lifetime - 1 :=
  ⟨by decide, (particle_decay_invariants pW [] (by decide)).2.1,
   (particle_decay_invariants pW [] (by decide)).2.2.1⟩

/-- C9: for a Special enemy in phase 1 the GameOver update path adds
`speed` to `x` regardless of `turnDirection`, the Playing path adds
`speed * turnDirection`, and for `turnDirection = -1` (with positive
speed) the two paths produce different positions. -/
theorem special_gameover_divergence (env : Env) (e : Enemy)
    (ht : e.enemyType = EnemyTypeSpecial) (hp : e.phase = 1) :
    (moveEnemyGO env e).x = e.x + e.speed ∧
    (moveEnemyP env e).enemy.x = e.x + e.speed * (e.turnDirection : ℚ) ∧
    (e.turnDirection = -1 → 0 < e.speed →
      (moveEnemyP env e).enemy.x ≠ (moveEnemyGO env e).x) := by
  have h1 : (moveEnemyGO env e).x = e.x + e.speed := by
    unfold moveEnemyGO
    simp only [ht, EnemyTypeSpecial, EnemyTypeStraight, EnemyTypeSine]
    norm_num [hp]
    split <;> simp
  have h2 : (moveEnemyP env e).enemy.x = e.x + e.speed * (e.turnDirection : ℚ) := by
    unfold moveEnemyP
    simp only [ht, EnemyTypeSpecial, EnemyTypeStraight, EnemyTypeSine]
    norm_num [hp]
    split <;> simp
  refine ⟨h1, h2, ?_⟩
  intro htd hs
  rw [h1, h2, htd]
  intro heq
  push_cast at heq
  linarith

/-- C9 witness: a concrete Special enemy in phase 1 with
`turnDirection = -1`. -/
theorem special_gameover_divergence_witness :
    (eSp.enemyType = EnemyTypeSpecial ∧ eSp.phase = 1 ∧
      eSp.turnDirection = -1 ∧ 0 < eSp.speed) ∧
    (moveEnemyP env0 eSp).enemy.x ≠ (moveEnemyGO env0 eSp).x :=
  ⟨by decide,
   (special_gameover_divergence env0 eSp (by decide) (by decide)).2.2
     (by decide) (by decide)⟩

/-- C7 counterexample: when the player position coincides with the enemy
position, the aimed-bullet computation reaches the zero divisor and
produces the undefined (Go NaN) outcome — there is no guard in the firing
code, so the claim that the computation guards against division by zero
fails. -/
theorem aimed_shot_unguarded_at_zero :
    aimedShot env0 100 100 100 100 = none := by decide

/-- C7 (amended): the aimed-bullet computation does NOT guard against
division by zero: the divisor `math.Hypot dx dy` is zero exactly when the
player coincides with the enemy position, and in that degenerate case the
result is the undefined (NaN) value, modelled as `none`; in every other
case the unguarded divisions produce the normalized velocity. -/
theorem aimed_shot_zero_distance (env : Env) (px py ex ey : ℚ) :
    (aimedShot env px py ex ey = none ↔ px = ex ∧ py = ey) ∧
    (¬ (px = ex ∧ py = ey) →
      aimedShot env px py ex ey =
        some ((px - ex) / env.hypot (px - ex) (py - ey) * 4,
              (py - ey) / env.hypot (px - ex) (py - ey) * 4)) := by
  constructor
  · simp only [aimedShot]
    split_ifs with h <;> simp_all [sub_eq_zero]
  · intro h
    simp only [aimedShot]
    rw [if_neg]
    intro hc
    exact h ⟨by linarith [sub_eq_zero.mp hc.1], by linarith [sub_eq_zero.mp hc.2]⟩

/-- C7 witness for the amended statement: a non-degenerate position. -/
theorem aimed_shot_zero_distance_witness :
    (¬ ((100 : ℚ) = 99 ∧ (100 : ℚ) = 100)) ∧
    aimedShot env0 100 100 99 100 =
      some ((100 - 99) / env0.hypot (100 - 99) (100 - 100) * 4,
            (100 - 100) / env0.hypot (100 - 99) (100 - 100) * 4) :=
  ⟨by decide, (aimed_shot_zero_distance env0 100 100 99 100).2 (by decide)⟩

/-- C2: from a freshly spawned boss (default speed 2, spawn x 320), the
Move phase (50 ascent ticks plus patrol) ends once its timer exceeds 120,
i.e. on tick 121; Telegraph ends once its timer exceeds 60, on tick 182;
Attack once its timer exceeds 80, on tick 263; Rest once its timer
exceeds 90, on tick 354, returning to Move — each transition resetting
the boss-local timer to zero.  The 5-way radial volley is emitted exactly
in the Attack state at timer values divisible by 8 (below 80), i.e. every
8 ticks, as the closed-form length formula states; tick 190 is such an
emission tick. -/
theorem boss_phase_sequencing :
    ((bossIter 120).bossState = 0 ∧ (bossIter 121).bossState = 1 ∧
      (bossIter 121).bossTimer = 0) ∧
    ((bossIter 181).bossState = 1 ∧ (bossIter 182).bossState = 2 ∧
      (bossIter 182).bossTimer = 0) ∧
    ((bossIter 262).bossState = 2 ∧ (bossIter 263).bossState = 3 ∧
      (bossIter 263).bossTimer = 0) ∧
    ((bossIter 353).bossState = 3 ∧ (bossIter 354).bossState = 0 ∧
      (bossIter 354).bossTimer = 0) ∧
    (moveEnemyP env0 (bossIter 189)).ebs.length = 5 ∧
    (∀ (env : Env) (e : Enemy),
      (moveEnemyP env e).ebs.length =
        if e.enemyType = EnemyTypeBoss ∧ e.bossState = 2 ∧
            (e.bossTimer + 1) % 8 = 0 ∧ e.bossTimer + 1 < 80 then 5 else 0) := by
  refine ⟨by decide, by decide, by decide, by decide, by decide, ?_⟩
  intro env e
  obtain ⟨ex, ey, esp, et, eti, eph, ehp, esb, ebt, ebc, etd, ebst, ebtm, emd⟩ := e
  simp only [moveEnemyP, bossVolley, EnemyTypeStraight, EnemyTypeSine,
    EnemyTypeSpecial, EnemyTypeBoss]
  by_cases h0 : et = 0
  · simp [h0]
  · by_cases h1 : et = 1
    · simp [h0, h1]
    · by_cases h2 : et = 2
      · simp only [h0, h1, h2, if_true, if_false, ite_true, ite_false,
          eq_self_iff_true, reduceIte, apply_ite MoveRes.ebs, List.length_nil,
          ite_self]
        split_ifs <;> simp_all
      · by_cases h3 : et = 3
        · simp only [h0, h1, h2, h3, if_true, if_false, ite_true, ite_false,
            eq_self_iff_true, reduceIte, apply_ite MoveRes.ebs,
            apply_ite Enemy.bossTimer, apply_ite List.length, List.length_map,
            List.length_nil, List.length_cons, ite_self]
          split_ifs <;> simp_all
        · simp [h0, h1, h2, h3]

/-- The loop-computed cumulative delay equals the sum of the `delay`
fields of waves `0..c` inclusive. -/
theorem totalDelay_eq_sum (waves : List Wave) (c : ℕ) :
    totalDelay waves c = ((waves.take (c + 1)).map Wave.delay).sum := by
  induction c with
  | zero =>
      cases waves with
      | nil => decide
      | cons w l => simp [totalDelay, List.range_succ]
  | succ n ih =>
      have h1 : totalDelay waves (n + 1) =
          totalDelay waves n + (waves.getD (n + 1) default).delay := by
        unfold totalDelay
        rw [List.range_succ, List.foldl_append]
        simp
      have h2 : (waves.take (n + 1 + 1)).map Wave.delay =
          (waves.take (n + 1)).map Wave.delay ++
            (waves[n + 1]?.toList.map Wave.delay) := by
        rw [List.take_succ, List.map_append]
      rw [h1, ih, h2, List.sum_append]
      cases hg : waves[n + 1]? with
      | none => simp [List.getD_eq_getElem?_getD, hg]; decide
      | some w => simp [List.getD_eq_getElem?_getD, hg]

/-- C3: while the spawn cursor is at index `c` (not yet past the wave
list), wave `c` is instantiated on exactly those frames whose wave timer
has reached the cumulative trigger `totalDelay waves c` — the sum of the
`delay` fields of waves `0..c` inclusive, recomputed as a prefix sum —
after which the cursor advances by one; and on the stage with delays
[0, 30, 30] the cursor trace shows the three enemies spawning at ticks 0,
30 and 60 (cursor becomes 1, 2, 3 during ticks 1, 31, 61, and is still
1, 2 after ticks 30, 60). -/
theorem wave_spawn_cumulative (env : Env) (waves : List Wave) (c t : ℕ)
    (es : List Enemy) (hc : c < waves.length) :
    (totalDelay waves c = ((waves.take (c + 1)).map Wave.delay).sum) ∧
    (totalDelay waves c ≤ t →
      spawnCheck env waves c t es =
        ⟨c + 1, es ++ [spawnEnemy env (waves.getD c default)]⟩) ∧
    (t < totalDelay waves c → spawnCheck env waves c t es = ⟨c, es⟩) ∧
    ((c3Trace 1).2.1 = 1 ∧ (c3Trace 30).2.1 = 1 ∧ (c3Trace 31).2.1 = 2 ∧
      (c3Trace 60).2.1 = 2 ∧ (c3Trace 61).2.1 = 3 ∧
      (c3Trace 61).2.2.length = 3) := by
  refine ⟨totalDelay_eq_sum waves c, ?_, ?_, by decide⟩
  · intro h; unfold spawnCheck; rw [if_pos hc, if_pos h]
  · intro h; unfold spawnCheck; rw [if_pos hc, if_neg (by omega)]

/-- C3 witness: the first wave of the [0, 30, 30] stage spawns at timer
0. -/
theorem wave_spawn_cumulative_witness :
    (0 < waves3.length ∧ totalDelay waves3 0 ≤ 0) ∧
    spawnCheck env0 waves3 0 0 [] =
      ⟨1, [] ++ [spawnEnemy env0 (waves3.getD 0 default)]⟩ :=
  ⟨by decide,
   (wave_spawn_cumulative env0 waves3 0 0 [] (by decide)).2.1 (by decide)⟩

/-- C10: when the fire key is held and the shoot cooldown is exactly 0,
the shoot block appends exactly the three-bullet volley — x-offsets 0, 8,
16 from the player, y at the player, velocities `sin/−cos` of −3°, 0°,
+3° scaled by speed 12 (see `mkPBullet`) — and sets the cooldown to 5,
which the same tick's countdown then lowers to 4; no bullets are appended
while the cooldown is nonzero or the key is up; and after a volley the
cooldown trajectory runs 4, 3, 2, 1 over the next four ticks, so the next
volley is at least 5 ticks after the previous one. -/
theorem player_fire_volley (env : Env) (px py : ℚ) (bs : List Bullet)
    (cd : ℤ) (keys : ℕ → Bool) (t : ℕ) :
    (env.space = true → cd = 0 →
      fireBlock env px py bs cd = (bs ++ fireVolley env px py, 5) ∧
      (shootStep env px py bs cd).1 =
        bs ++ [mkPBullet env px py (-3) 0, mkPBullet env px py 0 8,
               mkPBullet env px py 3 16] ∧
      (shootStep env px py bs cd).2 = 4) ∧
    (¬ (env.space = true ∧ cd = 0) → (shootStep env px py bs cd).1 = bs) ∧
    (keys t = true → cdTrace keys t = 0 →
      cdTrace keys (t + 1) = 4 ∧ cdTrace keys (t + 2) = 3 ∧
      cdTrace keys (t + 3) = 2 ∧ cdTrace keys (t + 4) = 1) := by
  refine ⟨?_, ?_, ?_⟩
  · intro hs hcd
    refine ⟨?_, ?_, ?_⟩
    · unfold fireBlock; rw [if_pos ⟨hs, hcd⟩]
    · unfold shootStep fireBlock fireVolley; rw [if_pos ⟨hs, hcd⟩]
    · unfold shootStep fireBlock; rw [if_pos ⟨hs, hcd⟩]; norm_num
  · intro h; unfold shootStep fireBlock; rw [if_neg h]
  · intro hk h0
    have s1 : cdTrace keys (t + 1) = 4 := by
      show (shootStep _ 0 0 [] (cdTrace keys t)).2 = 4
      rw [h0]; simp [shootStep, fireBlock, hk]
    have s2 : cdTrace keys (t + 2) = 3 := by
      show (shootStep _ 0 0 [] (cdTrace keys (t + 1))).2 = 3
      rw [s1]; simp [shootStep, fireBlock]
    have s3 : cdTrace keys (t + 3) = 2 := by
      show (shootStep _ 0 0 [] (cdTrace keys (t + 2))).2 = 2
      rw [s2]; simp [shootStep, fireBlock]
    have s4 : cdTrace keys (t + 4) = 1 := by
      show (shootStep _ 0 0 [] (cdTrace keys (t + 3))).2 = 1
      rw [s3]; simp [shootStep, fireBlock]
    exact ⟨s1, s2, s3, s4⟩

/-- C10 witness: with the key held from a fresh cooldown, the volley
fires at tick 0 and the cooldown then reads 4. -/
theorem player_fire_volley_witness :
    (envS.space = true ∧ (0 : ℤ) = 0 ∧ (fun _ => true) 0 = true ∧
      cdTrace (fun _ => true) 0 = 0) ∧
    (shootStep envS 320 408 [] 0).2 = 4 ∧ cdTrace (fun _ => true) 1 = 4 :=
  ⟨⟨rfl, rfl, rfl, rfl⟩,
   ((player_fire_volley envS 320 408 [] 0 (fun _ => true) 0).1 rfl rfl).2.2,
   (((player_fire_volley envS 320 408 [] 0 (fun _ => true) 0).2.2) rfl rfl).1⟩

theorem createExplosion_length (env : Env) (i : ℕ) (x y : ℚ) (c : Color) :
    (createExplosion env i x y c).length = 20 := by
  simp [createExplosion]

/-- A player bullet registers a hit exactly when some live enemy overlaps
it. -/
theorem hitEnemies_isSome_iff (b : Bullet) (es : List Enemy) :
    (hitEnemies b es).isSome ↔ ∃ e ∈ es, overlapBE b e := by
  induction es with
  | nil => simp [hitEnemies]
  | cons e rest ih =>
      by_cases h : overlapBE b e
      · by_cases hk : e.hp - 1 ≤ 0 <;> simp [hitEnemies, h, hk]
      · rw [hitEnemies, if_neg h]
        cases hr : hitEnemies b rest with
        | none => rw [hr] at ih; simp_all
        | some p => rw [hr] at ih; simp_all

/-- Accounting of a registered hit: total hit points drop by exactly one,
every surviving enemy keeps positive hit points, a kill report happens
exactly when the first overlapped enemy was on its last hit point (and
then that enemy leaves the list and the report carries its score value
and explosion data), and without a kill the list keeps its length. -/
theorem hitEnemies_acc (b : Bullet) (es : List Enemy)
    (hinv : ∀ e ∈ es, 0 < e.hp) :
    ∀ es' k, hitEnemies b es = some (es', k) →
      totalHp es' = totalHp es - 1 ∧
      (∀ e ∈ es', 0 < e.hp) ∧
      (∀ kk, k = some kk → es'.length + 1 = es.length ∧
        ∃ e ∈ es, overlapBE b e ∧ e.hp = 1 ∧
          kk = ⟨pointsFor e, e.x + 10, e.y + 10, explColor e⟩) ∧
      (k = none → es'.length = es.length) := by
  induction es with
  | nil => intro es' k h; simp [hitEnemies] at h
  | cons e rest ih =>
      intro es' k h
      have hhd : 0 < e.hp := hinv e (by simp)
      have hrest : ∀ e ∈ rest, 0 < e.hp := fun x hx => hinv x (by simp [hx])
      by_cases hov : overlapBE b e
      · by_cases hkill : e.hp - 1 ≤ 0
        · rw [hitEnemies, if_pos hov, if_pos hkill] at h
          simp only [Option.some.injEq, Prod.mk.injEq] at h
          obtain ⟨he, hk⟩ := h
          subst he; subst hk
          have hone : e.hp = 1 := by omega
          refine ⟨by simp [totalHp, hone], hrest, ?_, by intro hn; cases hn⟩
          intro kk hkk
          simp only [Option.some.injEq] at hkk
          subst hkk
          exact ⟨by simp, e, by simp, hov, hone, rfl⟩
        · rw [hitEnemies, if_pos hov, if_neg hkill] at h
          simp only [Option.some.injEq, Prod.mk.injEq] at h
          obtain ⟨he, hk⟩ := h
          subst he; subst hk
          refine ⟨by simp [totalHp]; ring, ?_, ?_, by simp⟩
          · intro x hx
            rcases List.mem_cons.mp hx with h1 | h2
            · subst h1; simp; omega
            · exact hrest x h2
          · intro kk hkk; cases hkk
      · rw [hitEnemies, if_neg hov] at h
        cases hr : hitEnemies b rest with
        | none => rw [hr] at h; cases h
        | some p =>
            obtain ⟨es'', k''⟩ := p
            rw [hr] at h
            simp only [Option.some.injEq, Prod.mk.injEq] at h
            obtain ⟨he, hk⟩ := h
            subst he; subst hk
            obtain ⟨f1, f2, f3, f4⟩ := ih hrest es'' k'' hr
            refine ⟨by simp [totalHp] at f1 ⊢; omega, ?_, ?_, ?_⟩
            · intro x hx
              rcases List.mem_cons.mp hx with h1 | h2
              · subst h1; exact hhd
              · exact f2 x h2
            · intro kk hkk
              obtain ⟨g1, e', he', g2, g3, g4⟩ := f3 kk hkk
              exact ⟨by simp; omega, e', by simp [he'], g2, g3, g4⟩
            · intro hn; have := f4 hn; simp [this]

/-- The bullet pass preserves positivity of every live enemy's hit
points. -/
theorem bulletsStep_enemies_inv (env : Env) :
    ∀ (bs : List Bullet) (es : List Enemy) (ec : ℕ),
      (∀ e ∈ es, 0 < e.hp) →
      ∀ e ∈ (bulletsStep env ec bs es).enemies, 0 < e.hp := by
  intro bs
  induction bs with
  | nil => intro es ec h; simpa [bulletsStep] using h
  | cons b rest ih =>
      intro es ec h
      rw [bulletsStep]
      cases hh : hitEnemies b es with
      | none => simpa using ih es ec h
      | some p =>
          obtain ⟨es', k⟩ := p
          have facts := hitEnemies_acc b es h es' k hh
          cases k with
          | none => simpa using ih es' ec facts.2.1
          | some kk => simpa using ih es' (ec + 1) facts.2.1

theorem bulletsStep_ec_ge (env : Env) :
    ∀ (bs : List Bullet) (es : List Enemy) (ec : ℕ),
      ec ≤ (bulletsStep env ec bs es).ec := by
  intro bs
  induction bs with
  | nil => intro es ec; simp [bulletsStep]
  | cons b rest ih =>
      intro es ec
      rw [bulletsStep]
      cases hh : hitEnemies b es with
      | none => simpa using ih es ec
      | some p =>
          obtain ⟨es', k⟩ := p
          cases k with
          | none => simpa using ih es' ec
          | some kk =>
              have := ih es' (ec + 1)
              simpa using le_trans (by omega) this

/-- Each kill in the bullet pass contributes exactly one 20-particle
explosion: the particle output length is 20 times the number of
`createExplosion` calls. -/
theorem bulletsStep_parts_len (env : Env) :
    ∀ (bs : List Bullet) (es : List Enemy) (ec : ℕ),
      (bulletsStep env ec bs es).particles.length =
        20 * ((bulletsStep env ec bs es).ec - ec) := by
  intro bs
  induction bs with
  | nil => intro es ec; simp [bulletsStep]
  | cons b rest ih =>
      intro es ec
      rw [bulletsStep]
      cases hh : hitEnemies b es with
      | none => simpa using ih es ec
      | some p =>
          obtain ⟨es', k⟩ := p
          cases k with
          | none => simpa using ih es' ec
          | some kk =>
              have h1 := ih es' (ec + 1)
              have h2 := bulletsStep_ec_ge env rest es' (ec + 1)
              simp only [List.length_append, createExplosion_length, h1]
              omega

/-- C4: for live enemies (all with positive hit points): a bullet
registers a hit exactly when it overlaps some enemy; a registered hit
removes exactly one total hit point, keeps every survivor's hit points
positive (so none ever becomes negative), reports a kill exactly when the
struck enemy was at 1 hp — in which case the enemy leaves the list in the
same tick and the kill carries its score value (1000 for a boss, 100
otherwise, via `pointsFor`) and explosion data — and consumes the bullet
(the remaining pass continues without it); the whole pass preserves the
positivity invariant and spawns exactly one 20-particle explosion per
kill; and freshly spawned enemies always start with positive hit points.
-/
theorem bullet_damage_resolution (env : Env) (b : Bullet) (bs : List Bullet)
    (es : List Enemy) (ec : ℕ) (w : Wave) (hinv : ∀ e ∈ es, 0 < e.hp) :
    ((hitEnemies b es).isSome ↔ ∃ e ∈ es, overlapBE b e) ∧
    (∀ es' k, hitEnemies b es = some (es', k) →
      totalHp es' = totalHp es - 1 ∧
      (∀ e ∈ es', 0 < e.hp) ∧
      (∀ kk, k = some kk → es'.length + 1 = es.length ∧
        ∃ e ∈ es, overlapBE b e ∧ e.hp = 1 ∧
          kk = ⟨pointsFor e, e.x + 10, e.y + 10, explColor e⟩) ∧
      (k = none → es'.length = es.length) ∧
      (bulletsStep env ec (b :: bs) es).bullets =
        (bulletsStep env (if k.isSome then ec + 1 else ec) bs es').bullets) ∧
    (∀ e ∈ (bulletsStep env ec bs es).enemies, 0 < e.hp) ∧
    (bulletsStep env ec bs es).particles.length =
      20 * ((bulletsStep env ec bs es).ec - ec) ∧
    0 < (spawnEnemy env w).hp := by
  refine ⟨hitEnemies_isSome_iff b es, ?_, bulletsStep_enemies_inv env bs es ec hinv,
    bulletsStep_parts_len env bs es ec, ?_⟩
  · intro es' k h
    obtain ⟨f1, f2, f3, f4⟩ := hitEnemies_acc b es hinv es' k h
    refine ⟨f1, f2, f3, f4, ?_⟩
    rw [bulletsStep, h]
    cases k <;> simp
  · simp only [spawnEnemy]
    split_ifs <;> norm_num

/-- C4 witness: a bullet overlapping a 1-hp Straight enemy. -/
theorem bullet_damage_resolution_witness :
    (∀ e ∈ [e4], 0 < e.hp) ∧
    ((hitEnemies b4 [e4]).isSome ↔ ∃ e ∈ [e4], overlapBE b4 e) :=
  ⟨by decide,
   (bullet_damage_resolution env0 b4 [] [e4] 0 bossWave (by decide)).1⟩

theorem bulletsStep_nil (env : Env) :
    ∀ (bs : List Bullet) (ec : ℕ),
      (bulletsStep env ec bs []).enemies = [] ∧
      (bulletsStep env ec bs []).points = 0 ∧
      (bulletsStep env ec bs []).particles = [] ∧
      (bulletsStep env ec bs []).ec = ec := by
  intro bs
  induction bs with
  | nil => intro ec; simp [bulletsStep]
  | cons b rest ih =>
      intro ec
      rw [bulletsStep]
      rw [show hitEnemies b ([] : List Enemy) = none from rfl]
      simpa using ih ec

/-- If no (post-integration) enemy bullet overlaps the player, the
enemy-bullet pass registers no hit, spawns nothing and draws no
randomness. -/
theorem ebStep_no_hit (env : Env) (px py : ℚ) :
    ∀ (ebs : List EnemyBullet) (ec : ℕ),
      (∀ eb ∈ ebs,
        ¬ overlapEBP { eb with x := eb.x + eb.vx, y := eb.y + eb.vy } px py) →
      (enemyBulletsStep env ec px py ebs).hit = false ∧
      (enemyBulletsStep env ec px py ebs).particles = [] ∧
      (enemyBulletsStep env ec px py ebs).ec = ec := by
  intro ebs
  induction ebs with
  | nil => intro ec _; simp [enemyBulletsStep]
  | cons eb rest ih =>
      intro ec h
      simp only [enemyBulletsStep]
      rw [if_neg (h eb (by simp))]
      simpa using ih ec (fun x hx => h x (by simp [hx]))

/-- If some (post-integration) enemy bullet overlaps the player, the
enemy-bullet pass registers the hit and spawns the one 20-particle green
explosion at the player. -/
theorem ebStep_hit (env : Env) (px py : ℚ) :
    ∀ (ebs : List EnemyBullet) (ec : ℕ),
      (∃ eb ∈ ebs,
        overlapEBP { eb with x := eb.x + eb.vx, y := eb.y + eb.vy } px py) →
      (enemyBulletsStep env ec px py ebs).hit = true ∧
      (enemyBulletsStep env ec px py ebs).particles =
        createExplosion env ec (px + 10) (py + 12) colorGreen ∧
      (enemyBulletsStep env ec px py ebs).ec = ec + 1 := by
  intro ebs
  induction ebs with
  | nil => intro ec h; simp at h
  | cons eb rest ih =>
      intro ec h
      by_cases hov : overlapEBP { eb with x := eb.x + eb.vx, y := eb.y + eb.vy } px py
      · simp only [enemyBulletsStep]
        rw [if_pos hov]
        exact ⟨rfl, rfl, rfl⟩
      · obtain ⟨x, hx, hovx⟩ := h
        rcases List.mem_cons.mp hx with h1 | h2
        · subst h1; exact absurd hovx hov
        · simp only [enemyBulletsStep]
          rw [if_neg hov]
          simpa using ih ec ⟨x, h2, hovx⟩

/-- C5 (amended): on a Playing tick in which the spawn cursor has
exhausted the wave list and no enemies remain alive (in particular on the
first tick of a stage whose wave list is empty), and in which no leftover
enemy bullet overlaps the player, the state becomes StageClear with the
stage-clear timer reset and the key-release flag cleared, and the stage
index is unchanged — the transition never jumps directly into the next
stage's Playing within the same tick.  (Without the enemy-bullet proviso
the claim is false: see the counterexample, where the later
player-hit check of the same tick overwrites the StageClear state with
PlayerExplosion.) -/
theorem stageclear_on_exhaustion (env : Env) (g : Game)
    (hstate : g.gameState = GameStatePlaying)
    (hcur : g.waves.length ≤ g.currentSpawn)
    (hen : g.enemies = [])
    (hnb : ∀ eb ∈ g.enemyBullets,
      ¬ overlapEBP { eb with x := eb.x + eb.vx, y := eb.y + eb.vy }
        (movedPX env g.playerX) (movedPY env g.playerY)) :
    (update env g).gameState = GameStateStageClear ∧
    (update env g).stageClearTimer = 0 ∧
    (update env g).stageClearKeyReleased = false ∧
    (update env g).currentStage = g.currentStage := by
  have hns : ¬ g.currentSpawn < g.waves.length := by omega
  simp only [update, hstate, GameStateTitle, GameStatePlaying, GameStateStageClear,
    GameStatePlayerExplosion, GameStateGameOver, Nat.reduceEqDiff, reduceIte,
    playingStep, hen, spawnCheck, hns, if_false, ite_false,
    enemyLoop, List.filter_nil, List.append_nil, List.nil_append, hcur,
    eq_self_iff_true, and_self, true_and, and_true, if_true, ite_true,
    bulletsStep_nil, List.any_nil, Bool.false_eq_true]
  rw [(ebStep_no_hit env (movedPX env g.playerX) (movedPY env g.playerY)
    g.enemyBullets _ hnb).1]
  simp

/-- C5 counterexample: the claim as stated — the transition to StageClear
happens on any tick with the cursor exhausted and no enemies — is false:
with one leftover enemy bullet overlapping the player on that same tick,
the tick ends in PlayerExplosion, not StageClear. -/
theorem stageclear_overridden_by_enemy_bullet :
    gClearHit.gameState = GameStatePlaying ∧
    gClearHit.waves.length ≤ gClearHit.currentSpawn ∧
    gClearHit.enemies = [] ∧
    (update env0 gClearHit).gameState = GameStatePlayerExplosion ∧
    (update env0 gClearHit).gameState ≠ GameStateStageClear := by decide

/-- C5 witness: a Playing session with an empty wave list, no enemies and
no enemy bullets transitions to StageClear on its first tick. -/
theorem stageclear_on_exhaustion_witness :
    (gClear.gameState = GameStatePlaying ∧
      gClear.waves.length ≤ gClear.currentSpawn ∧ gClear.enemies = []) ∧
    (update env0 gClear).gameState = GameStateStageClear ∧
    (update env0 gClear).currentStage = gClear.currentStage :=
  ⟨by decide,
   (stageclear_on_exhaustion env0 gClear (by decide) (by decide) (by decide)
      (by decide)).1,
   (stageclear_on_exhaustion env0 gClear (by decide) (by decide) (by decide)
      (by decide)).2.2.2⟩

/-- C6 (amended): whenever an enemy bullet overlaps the player during
Playing (here with no live enemies, so only the bullet path acts), the
game transitions to PlayerExplosion with its timer reset and the
20-particle explosion is spawned at the player via the green-coloured
`createExplosion` call — but the high score is NOT updated on this path:
it is left exactly as it was (the update happens only on a direct
player–enemy body collision or on the transitions into GameOver from
StageClear). -/
theorem enemy_bullet_hit_no_highscore (env : Env) (g : Game)
    (hstate : g.gameState = GameStatePlaying)
    (hcur : g.waves.length ≤ g.currentSpawn)
    (hen : g.enemies = [])
    (hhit : ∃ eb ∈ g.enemyBullets,
      overlapEBP { eb with x := eb.x + eb.vx, y := eb.y + eb.vy }
        (movedPX env g.playerX) (movedPY env g.playerY)) :
    (update env g).gameState = GameStatePlayerExplosion ∧
    (update env g).playerExplosionTimer = 0 ∧
    (update env g).highScore = g.highScore ∧
    (update env g).particles = stepParticles g.particles ++
      createExplosion env 0 (movedPX env g.playerX + 10)
        (movedPY env g.playerY + 12) colorGreen := by
  have hns : ¬ g.currentSpawn < g.waves.length := by omega
  have heb := ebStep_hit env (movedPX env g.playerX) (movedPY env g.playerY)
    g.enemyBullets 0 hhit
  simp only [update, hstate, GameStateTitle, GameStatePlaying, GameStateStageClear,
    GameStatePlayerExplosion, GameStateGameOver, Nat.reduceEqDiff, reduceIte,
    playingStep, hen, spawnCheck, hns, if_false, ite_false,
    enemyLoop, List.filter_nil, List.append_nil, List.nil_append, hcur,
    eq_self_iff_true, and_self, true_and, and_true, if_true, ite_true,
    bulletsStep_nil, List.any_nil, Bool.false_eq_true]
  rw [heb.1, heb.2.1]
  simp

/-- C6 counterexample: the claim as stated — that the high score is
updated to the current score when an enemy bullet kills the player with
score above the stored high score — is false: with score 500 and high
score 0 the tick ends in PlayerExplosion with the high score still 0. -/
theorem enemy_bullet_death_drops_highscore :
    gBulletHit.score = 500 ∧ gBulletHit.highScore = 0 ∧
    (update env0 gBulletHit).gameState = GameStatePlayerExplosion ∧
    (update env0 gBulletHit).highScore = 0 := by decide

/-- C6 witness: the concrete hit session satisfies the amended claim's
hypotheses and conclusions. -/
theorem enemy_bullet_hit_no_highscore_witness :
    (gBulletHit.gameState = GameStatePlaying ∧
      gBulletHit.waves.length ≤ gBulletHit.currentSpawn ∧
      gBulletHit.enemies = [] ∧
      ∃ eb ∈ gBulletHit.enemyBullets,
        overlapEBP { eb with x := eb.x + eb.vx, y := eb.y + eb.vy }
          (movedPX env0 gBulletHit.playerX) (movedPY env0 gBulletHit.playerY)) ∧
    (update env0 gBulletHit).gameState = GameStatePlayerExplosion ∧
    (update env0 gBulletHit).highScore = gBulletHit.highScore :=
  ⟨by decide,
   (enemy_bullet_hit_no_highscore env0 gBulletHit (by decide) (by decide)
      (by decide) (by decide)).1,
   (enemy_bullet_hit_no_highscore env0 gBulletHit (by decide) (by decide)
      (by decide) (by decide)).2.2.1⟩

/-- C1 (amended): pressing the restart key on the GameOver screen
replaces the session with a freshly constructed one (score, enemies,
bullets, enemy bullets, particles, wave list and stage index all equal to
the fresh session's values) in state Playing — and the high score is ALSO
reset: it equals the fresh session's high score 0, NOT the pre-restart
high score, because `*g = *NewGame()` overwrites every field. -/
theorem restart_resets_session (env : Env) (g : Game)
    (hstate : g.gameState = GameStateGameOver) (hr : env.rKey = true) :
    (update env g).score = (newGame env).score ∧
    (update env g).enemies = (newGame env).enemies ∧
    (update env g).bullets = (newGame env).bullets ∧
    (update env g).enemyBullets = (newGame env).enemyBullets ∧
    (update env g).particles = (newGame env).particles ∧
    (update env g).currentStage = (newGame env).currentStage ∧
    (update env g).waves = (newGame env).waves ∧
    (update env g).gameState = GameStatePlaying ∧
    (update env g).highScore = 0 ∧ (newGame env).highScore = 0 := by
  simp only [update, hstate, GameStateTitle, GameStatePlaying, GameStateStageClear,
    GameStatePlayerExplosion, GameStateGameOver, Nat.reduceEqDiff, reduceIte,
    gameOverStep, hr, if_true, ite_true]
  simp [newGame]

/-- C1 counterexample: the claim that the high score persists across the
restart is false: a GameOver session holding high score 500 restarts
into a session whose high score is 0. -/
theorem restart_highScore_not_preserved :
    gOver.gameState = GameStateGameOver ∧ gOver.highScore = 500 ∧
    (update envR gOver).highScore = 0 ∧
    (update envR gOver).highScore ≠ gOver.highScore := by decide

/-- C1 witness: the concrete GameOver session restarts into a fresh
Playing session. -/
theorem restart_resets_session_witness :
    (gOver.gameState = GameStateGameOver ∧ envR.rKey = true) ∧
    (update envR gOver).score = (newGame envR).score ∧
    (update envR gOver).gameState = GameStatePlaying :=
  ⟨by decide, (restart_resets_session envR gOver (by decide) (by decide)).1,
   (restart_resets_session envR gOver (by decide) (by decide)).2.2.2.2.2.2.2.1⟩

end Shooting
